import Mathlib

/-!
Shallow embedding of the distributed log aggregator service
(`aggregator/src/main.py`): the event data model, the ingestion endpoint
(`publish_event`), the background consumer (`start_consumer`), the query
endpoints (`get_events`, `get_stats`) and the startup retry loop (`lifespan`).

External collaborators are modelled explicitly:
 * the Redis queue is a FIFO `List LogEvent` (publish appends with `rpush`
   via a pipeline, the consumer pops the head with `blpop`);
 * the Postgres table `events` is a `List StoredEvent` together with the
   next SERIAL value; the `ON CONFLICT (topic, event_id) DO NOTHING` insert
   is an insert guarded by a key lookup, which is atomic per transaction;
 * transport and storage failures are Boolean oracles passed to the
   operations that can raise them.

Concurrency: each consumer transaction and each counter increment is a
single atomic step of the model, so a concurrent execution of the five
workers and the request handlers is an arbitrary interleaving, i.e. an
arbitrary sequence of these atomic steps (the `SysStep` relation below).
-/

namespace Aggregator

/-- Wire-format event, mirroring the pydantic model `LogEvent`
(`topic`, `event_id`, `timestamp`, `source` strings and a JSON `payload`,
kept opaque as its serialized form). -/
structure LogEvent where
  topic : String
  event_id : String
  timestamp : String
  source : String
  payload : String
deriving DecidableEq

/-- Naive date-time, the result of
`datetime.fromisoformat(...).replace(tzinfo=None)`: the wall-clock fields
of the parsed ISO-8601 string with any UTC offset discarded (the Python call
`replace(tzinfo=None)` keeps the clock fields and drops the offset). -/
structure DateTime where
  year : Nat
  month : Nat
  day : Nat
  hour : Nat
  minute : Nat
  second : Nat
  usec : Nat
deriving DecidableEq

/-- Chronological key of a naive date-time: the radices (13, 32, 24, 60,
60, 10^6) strictly bound each field of a valid date-time, so `key` is
order-isomorphic to the lexicographic (chronological) order that the
TIMESTAMP column is sorted by. -/
def DateTime.key (t : DateTime) : Nat :=
  (((((t.year * 13 + t.month) * 32 + t.day) * 24 + t.hour) * 60 + t.minute) * 60
      + t.second) * 1000000 + t.usec

/-- Row of the `events` table created by `init_db`. The SERIAL `id` is
assigned by the store at insert time; the `received_at` column
(DEFAULT NOW()) is storage-assigned metadata that no endpoint ever reads
back (`get_events` selects topic, event_id, timestamp, source, payload),
so it is omitted. -/
structure StoredEvent where
  id : Nat
  topic : String
  event_id : String
  timestamp : DateTime
  source : String
  payload : String
deriving DecidableEq

/-- The in-memory `stats` dict. -/
structure Stats where
  received : Nat
  processed_success : Nat
  duplicates_dropped : Nat
deriving DecidableEq

/-- Whole-system state: the queue (`event_queue` Redis list), the durable
store (`events` table plus its next SERIAL value) and the counters. -/
structure SysState where
  queue : List LogEvent
  store : List StoredEvent
  nextId : Nat
  stats : Stats
deriving DecidableEq

/-- Fresh process and fresh backing services: empty queue, empty table,
SERIAL starting at 1, zeroed counters. -/
def initState : SysState :=
  { queue := [], store := [], nextId := 1,
    stats := { received := 0, processed_success := 0, duplicates_dropped := 0 } }

/-! ### ISO-8601 timestamp parsing (model of `datetime.fromisoformat`)

The consumer normalizes the timestamp field of the message with
`datetime.fromisoformat(...).replace(tzinfo=None)` and a failure raises
inside the try block of the worker.  The model below parses the extended
format `YYYY-MM-DD[{T| }HH:MM[:SS[.ffffff]][Z|±HH:MM]]` with calendar
validation (including leap years), covering the forms used by clients of
the service; the offset is validated and then discarded, exactly as
`replace(tzinfo=None)` does. -/

/-- Numeric value of a decimal digit character. -/
def digitVal (c : Char) : Nat := c.toNat - '0'.toNat

/-- Read exactly `n` decimal digits, accumulating their value. -/
def readFixedNat : Nat → Nat → List Char → Option (Nat × List Char)
  | 0, acc, cs => some (acc, cs)
  | _ + 1, _, [] => none
  | n + 1, acc, c :: cs =>
      if c.isDigit then readFixedNat n (acc * 10 + digitVal c) cs else none

/-- Split off the longest leading run of decimal digits. -/
def takeWhileDigits : List Char → List Char × List Char
  | [] => ([], [])
  | c :: cs =>
      if c.isDigit then
        let p := takeWhileDigits cs
        (c :: p.1, p.2)
      else ([], c :: cs)

/-- Microseconds denoted by a fractional-second digit run (scaled, with
digits beyond the sixth truncated, as CPython does). -/
def fracToUsec (ds : List Char) : Nat :=
  ((ds.take 6) ++ List.replicate (6 - ds.length) '0').foldl
    (fun acc c => acc * 10 + digitVal c) 0

/-- Leap-year rule of the proleptic Gregorian calendar. -/
def isLeapYear (y : Nat) : Bool :=
  (y % 4 == 0 && y % 100 != 0) || y % 400 == 0

/-- Number of days in a month. -/
def daysInMonth (y mo : Nat) : Nat :=
  if mo = 2 then (if isLeapYear y then 29 else 28)
  else if mo = 4 ∨ mo = 6 ∨ mo = 9 ∨ mo = 11 then 30
  else 31

/-- Check that the remaining characters are a valid UTC-offset suffix:
empty, `Z`/`z`, or `±HH:MM` with an in-range offset. -/
def validOffset : List Char → Bool
  | [] => true
  | ['Z'] => true
  | ['z'] => true
  | c :: cs =>
      (c = '+' || c = '-') &&
      match readFixedNat 2 0 cs with
      | some (oh, ':' :: cs2) =>
          (match readFixedNat 2 0 cs2 with
           | some (om, []) => oh < 24 && om < 60
           | _ => false)
      | _ => false

/-- Parse the time-of-day part `HH:MM[:SS[.ffffff]][offset]`, returning
hour, minute, second and microseconds. -/
def parseTime (cs : List Char) : Option (Nat × Nat × Nat × Nat) :=
  match readFixedNat 2 0 cs with
  | some (hh, ':' :: cs1) =>
      (match readFixedNat 2 0 cs1 with
       | some (mi, ':' :: cs2) =>
           (match readFixedNat 2 0 cs2 with
            | some (ss, cs3) =>
                (match cs3 with
                 | c :: cs4 =>
                     if c = '.' ∨ c = ',' then
                       let p := takeWhileDigits cs4
                       if p.1.isEmpty then none
                       else if validOffset p.2 then some (hh, mi, ss, fracToUsec p.1)
                       else none
                     else if validOffset cs3 then some (hh, mi, ss, 0)
                     else none
                 | [] => some (hh, mi, ss, 0))
            | none => none)
       | some (mi, cs2) =>
           if validOffset cs2 then some (hh, mi, 0, 0) else none
       | none => none)
  | _ => none

/-- Model of `datetime.fromisoformat(s).replace(tzinfo=None)`: parse the
date, the optional separator and time-of-day, validate every field
against the calendar, and drop the offset.  Returns `none` exactly when
the Python call raises `ValueError`. -/
def fromisoformat (s : String) : Option DateTime :=
  match readFixedNat 4 0 s.data with
  | some (y, '-' :: cs1) =>
      (match readFixedNat 2 0 cs1 with
       | some (mo, '-' :: cs2) =>
           (match readFixedNat 2 0 cs2 with
            | some (d, cs3) =>
                let time? : Option (Nat × Nat × Nat × Nat) :=
                  match cs3 with
                  | [] => some (0, 0, 0, 0)
                  | c :: cs4 => if c = 'T' ∨ c = ' ' then parseTime cs4 else none
                (match time? with
                 | some (hh, mi, ss, us) =>
                     if 1 ≤ y ∧ 1 ≤ mo ∧ mo ≤ 12 ∧ 1 ≤ d ∧ d ≤ daysInMonth y mo ∧
                        hh < 24 ∧ mi < 60 ∧ ss < 60 then
                       some ⟨y, mo, d, hh, mi, ss, us⟩
                     else none
                 | none => none)
            | none => none)
       | _ => none)
  | _ => none

/-! ### Ingestion Gate: `POST /publish` (`publish_event`) -/

/-- Request body of `POST /publish`: `Union[LogEvent, List[LogEvent]]`. -/
inductive PublishBody where
  | single (e : LogEvent)
  | batch (es : List LogEvent)
deriving DecidableEq

/-- Normalization done by the handler:
`events_to_process = event if isinstance(event, list) else [event]`. -/
def eventsToProcess : PublishBody → List LogEvent
  | .single e => [e]
  | .batch es => es

/-- Response of `POST /publish`: `ok status count` is the HTTP 200 JSON
body with its status string and queued-event count; `serverError` is the
`HTTPException` raised on a queue failure. -/
inductive PublishResult where
  | ok (status : String) (count : Nat)
  | serverError (code : Nat)
deriving DecidableEq

/-- Handler of `POST /publish`.  The events are `rpush`ed through one
pipeline, so on success all of them are appended to the queue tail in
request order and `received` grows by the batch size; on a transport
failure during `pipe.execute()` nothing is enqueued (the pipeline is a
single MULTI/EXEC round trip), `received` is untouched and a 500 error
is returned.  `queueOk` is the transport oracle; a pipeline with no
queued commands performs no round trip at all (`execute` returns
immediately), so an empty batch cannot hit a transport failure. -/
def publish_event (queueOk : Bool) (body : PublishBody) (st : SysState) :
    SysState × PublishResult :=
  let evs := eventsToProcess body
  if queueOk || evs.isEmpty then
    ({ st with queue := st.queue ++ evs,
               stats := { st.stats with received := st.stats.received + evs.length } },
     .ok "queued" evs.length)
  else
    (st, .serverError 500)

/-! ### Consumer Pool: `start_consumer` -/

/-- Does the store already hold a row with this (topic, event_id) pair?
This is what the UNIQUE constraint `unique_event_id` checks. -/
def hasKey (store : List StoredEvent) (t i : String) : Bool :=
  store.any (fun r => r.topic == t && r.event_id == i)

/-- Number of rows with the given (topic, event_id) pair. -/
def keyCount (store : List StoredEvent) (t i : String) : Nat :=
  (store.filter (fun r => r.topic == t && r.event_id == i)).length

/-- Row built by the INSERT: the next SERIAL id, the fields of the event and
its normalized timestamp. -/
def mkRecord (id : Nat) (e : LogEvent) (ts : DateTime) : StoredEvent :=
  { id := id, topic := e.topic, event_id := e.event_id, timestamp := ts,
    source := e.source, payload := e.payload }

/-- Body of the per-message consumer transaction: normalize the
timestamp, run
`INSERT ... ON CONFLICT (topic, event_id) DO NOTHING`, and bump
`processed_success` when the result is "INSERT 0 1" and
`duplicates_dropped` otherwise ("INSERT 0 0").  A `fromisoformat`
failure or a storage error (`dbFail`) lands in the surrounding
`except` block: it is logged, the transaction is rolled back, and
neither the store nor any counter changes. -/
def processMessage (dbFail : Bool) (st : SysState) (e : LogEvent) : SysState :=
  match fromisoformat e.timestamp with
  | none => st
  | some ts =>
      if dbFail then st
      else if hasKey st.store e.topic e.event_id then
        { st with stats :=
            { st.stats with duplicates_dropped := st.stats.duplicates_dropped + 1 } }
      else
        { st with store := st.store ++ [mkRecord st.nextId e ts],
                  nextId := st.nextId + 1,
                  stats :=
                    { st.stats with processed_success := st.stats.processed_success + 1 } }

/-- One iteration of the loop of a consumer worker: `blpop` with a 5 s
timeout either returns nothing (the loop just spins) or pops the head
message, which is then processed; the message is never requeued. -/
def consumeStep (dbFail : Bool) (st : SysState) : SysState :=
  match st.queue with
  | [] => st
  | e :: rest => processMessage dbFail { st with queue := rest } e

/-- Run `n` failure-free consumer iterations. -/
def consumeN : Nat → SysState → SysState
  | 0, st => st
  | n + 1, st => consumeN n (consumeStep false st)

/-! ### Query Surface: `GET /events` (`get_events`) -/

/-- Python truthiness of the optional `topic` query parameter: the
check `if topic:` in the handler is false both for `None` and for the empty
string. -/
def topicTruthy : Option String → Bool
  | none => false
  | some t => !(t == "")

/-- Insert a row into a list kept in descending timestamp order. -/
def insertDesc (r : StoredEvent) : List StoredEvent → List StoredEvent
  | [] => [r]
  | x :: xs =>
      if x.timestamp.key ≤ r.timestamp.key then r :: x :: xs
      else x :: insertDesc r xs

/-- Sort rows by timestamp, newest first (`ORDER BY timestamp DESC`). -/
def sortByTimestampDesc : List StoredEvent → List StoredEvent
  | [] => []
  | x :: xs => insertDesc x (sortByTimestampDesc xs)

/-- Handler of `GET /events`: optional exact-match topic filter (guarded
by Python truthiness), then `ORDER BY timestamp DESC LIMIT 50`. -/
def get_events (store : List StoredEvent) (topic : Option String) : List StoredEvent :=
  let rows :=
    if topicTruthy topic then
      store.filter (fun r => r.topic == (topic.getD ""))
    else store
  (sortByTimestampDesc rows).take 50

/-! ### Query Surface: `GET /stats` (`get_stats`) -/

/-- Two-digit zero-padded decimal, the Python zero-pad format for values
below 100. -/
def pad2 (n : Nat) : String :=
  if n < 10 then "0" ++ Nat.repr n else Nat.repr n

/-- Model of the Python expression `str(timedelta(seconds=n))` for a nonnegative
whole number of seconds: `H:MM:SS` below one day, prefixed by
`D day(s), ` from one day up. -/
def timedeltaStr (n : Nat) : String :=
  let days := n / 86400
  let secs := n % 86400
  let hh := secs / 3600
  let mm := secs % 3600 / 60
  let ss := secs % 60
  let hms := Nat.repr hh ++ ":" ++ pad2 mm ++ ":" ++ pad2 ss
  if days = 0 then hms
  else if days = 1 then "1 day, " ++ hms
  else Nat.repr days ++ " days, " ++ hms

/-- Distinct topics present in the store (`SELECT DISTINCT topic`). -/
def distinctTopics (store : List StoredEvent) : List String :=
  (store.map (fun r => r.topic)).eraseDups

/-- Response body of `GET /stats`. -/
structure StatsResponse where
  received : Nat
  unique_processed : Nat
  duplicate_dropped : Nat
  topics : List String
  uptime : String
deriving DecidableEq

/-- Handler of `GET /stats`: the three counters, the distinct topics
read fresh from the store, and `str(timedelta(seconds=int(time.time() -
start_time)))` where `elapsed` is that integer number of seconds. -/
def get_stats (elapsed : Nat) (st : SysState) : StatsResponse :=
  { received := st.stats.received,
    unique_processed := st.stats.processed_success,
    duplicate_dropped := st.stats.duplicates_dropped,
    topics := distinctTopics st.store,
    uptime := timedeltaStr elapsed }

/-! ### Startup: the `lifespan` retry loop -/

/-- Handles held in the module globals after startup, plus how many
consumer tasks were spawned.  `db_pool` / `redis_client` are `none`
exactly when they were never assigned (still the initial `None`). -/
structure AppHandles where
  db_pool : Option Unit
  redis_client : Option Unit
  consumersStarted : Nat
deriving DecidableEq

/-- Index of the first successful attempt among the next `fuel`
attempts, starting at attempt `i` (the `for i in range(5)` loop with
`break` on success). -/
def firstSuccess (ok : Nat → Bool) : Nat → Nat → Option Nat
  | _, 0 => none
  | i, fuel + 1 => if ok i then some i else firstSuccess ok (i + 1) fuel

/-- Model of `lifespan` before the `yield`: up to 5 connection attempts
(each attempt is the `create_pool` / `from_url` / `init_db` block as a
unit, with `ok i` telling whether attempt `i` succeeds; a failed
attempt — dependency unreachable — leaves the globals `None` and sleeps
2 s).  After the loop the code unconditionally starts 5 consumer tasks
and yields: there is no post-loop check of the handles. -/
def lifespanStartup (ok : Nat → Bool) : AppHandles :=
  match firstSuccess ok 0 5 with
  | some _ => { db_pool := some (), redis_client := some (), consumersStarted := 5 }
  | none => { db_pool := none, redis_client := none, consumersStarted := 5 }

/-! ### Interleaved executions -/

/-- One atomic step of the running system: a `POST /publish` handler
finishing (with either transport outcome), or one consumer iteration
(with either storage outcome).  `GET` handlers do not change the
state. -/
inductive SysStep : SysState → SysState → Prop where
  | publish (queueOk : Bool) (body : PublishBody) (st : SysState) :
      SysStep st (publish_event queueOk body st).1
  | consume (dbFail : Bool) (st : SysState) :
      SysStep st (consumeStep dbFail st)

/-- States reachable from `s0` by any interleaving of handler and
worker steps. -/
inductive ReachableFrom (s0 : SysState) : SysState → Prop where
  | refl : ReachableFrom s0 s0
  | tail {s1 s2 : SysState} :
      ReachableFrom s0 s1 → SysStep s1 s2 → ReachableFrom s0 s2

/-! ### Derived predicates used by the verification -/

/-- Strengthened counter invariant: the counters of successes and
duplicates, the messages still queued, and a fixed deficit `k` (messages
already accepted but dropped by a worker) never exceed `received`. -/
def CounterInv (k : Nat) (st : SysState) : Prop :=
  st.stats.processed_success + st.stats.duplicates_dropped + st.queue.length + k ≤
    st.stats.received

/-- The newest-first ordering of `ORDER BY timestamp DESC`: a row may
precede another only if its timestamp is at least as late. -/
def tsDescRel (a b : StoredEvent) : Prop :=
  b.timestamp.key ≤ a.timestamp.key

/-- Split a character list on the colon character; a list with no colon
gives one field, and each colon starts a new field. -/
def splitOnColon : List Char → List (List Char)
  | [] => [[]]
  | c :: cs =>
      if c = ':' then [] :: splitOnColon cs
      else
        match splitOnColon cs with
        | [] => [[c]]
        | g :: gs => (c :: g) :: gs

/-- Are all characters decimal digits? -/
def allDigits (cs : List Char) : Bool := cs.all Char.isDigit

/-- Does the string have the exact colon-separated three-field shape
`H:MM:SS`: a nonempty all-digit hour field, then two-digit all-digit
minute and second fields? -/
def isHMMSS (t : String) : Bool :=
  match splitOnColon t.data with
  | [h, m, s] =>
      !h.isEmpty && allDigits h && m.length == 2 && allDigits m &&
        s.length == 2 && allDigits s
  | _ => false

/-! ### Concrete sample data for witnesses and counterexamples -/

/-- Sample event (the concrete scenario of the spec). -/
def evA : LogEvent :=
  { topic := "t", event_id := "a", timestamp := "2024-01-01T00:00:00Z",
    source := "s", payload := "null" }

/-- A second publish attempt of the same (topic, event_id) pair. -/
def evA2 : LogEvent :=
  { topic := "t", event_id := "a", timestamp := "2024-01-01T00:00:05",
    source := "s2", payload := "null" }

/-- A third publish attempt of the same (topic, event_id) pair. -/
def evA3 : LogEvent :=
  { topic := "t", event_id := "a", timestamp := "2024-01-01T00:00:09",
    source := "s3", payload := "null" }

/-- Event sharing the event_id of `evA` but with a different topic. -/
def evB : LogEvent :=
  { topic := "u", event_id := "a", timestamp := "2024-02-02T10:30:00",
    source := "s", payload := "null" }

/-- Structurally valid event whose timestamp string is not parseable as
ISO-8601. -/
def evBad : LogEvent :=
  { topic := "t", event_id := "x", timestamp := "not-a-date",
    source := "s", payload := "null" }

/-- A stored row with a nonempty topic, used against the empty-topic
filter query. -/
def recX : StoredEvent :=
  { id := 1, topic := "x", event_id := "a",
    timestamp := ⟨2024, 1, 1, 0, 0, 0, 0⟩, source := "s", payload := "null" }

/-- An older stored row under topic x. -/
def recY : StoredEvent :=
  { id := 2, topic := "x", event_id := "b",
    timestamp := ⟨2023, 5, 4, 12, 0, 0, 0⟩, source := "s", payload := "null" }

/-- A stored row under another topic. -/
def recZ : StoredEvent :=
  { id := 3, topic := "y", event_id := "c",
    timestamp := ⟨2024, 3, 1, 0, 0, 0, 0⟩, source := "s", payload := "null" }

/-! ## Helper lemmas -/

theorem hasKey_append (l l' : List StoredEvent) (t i : String) :
    hasKey (l ++ l') t i = (hasKey l t i || hasKey l' t i) := by
  simp [hasKey, List.any_append]

theorem keyCount_append (l l' : List StoredEvent) (t i : String) :
    keyCount (l ++ l') t i = keyCount l t i + keyCount l' t i := by
  simp [keyCount, List.filter_append]

theorem keyCount_eq_zero_of_hasKey_eq_false (l : List StoredEvent) (t i : String)
    (h : hasKey l t i = false) : keyCount l t i = 0 := by
  simp only [hasKey, List.any_eq_false] at h
  simp only [keyCount, List.length_eq_zero, List.filter_eq_nil_iff]
  intro r hr
  simp [h r hr]

theorem keyCount_mkRecord_self (n : Nat) (e : LogEvent) (ts : DateTime) :
    keyCount [mkRecord n e ts] e.topic e.event_id = 1 := by
  simp [keyCount, mkRecord, List.filter]

theorem hasKey_mkRecord_self (store : List StoredEvent) (n : Nat) (e : LogEvent)
    (ts : DateTime) :
    hasKey (store ++ [mkRecord n e ts]) e.topic e.event_id = true := by
  simp [hasKey_append, hasKey, mkRecord]

/-! ## C4: a storage-layer error drops the message without any effect -/

/-- C4: if a storage-layer error occurs while a consumer worker inserts a
message, the message is dropped without retry or requeue (the queue loses
exactly that head message), the Durable Store is unchanged by the
rolled-back transaction, and neither `processed_success` nor
`duplicates_dropped` (nor `received`) is incremented. -/
theorem storage_error_drops_message (st : SysState) (e : LogEvent)
    (rest : List LogEvent) (hq : st.queue = e :: rest)
    (hts : (fromisoformat e.timestamp).isSome) :
    (consumeStep true st).store = st.store ∧
    (consumeStep true st).stats = st.stats ∧
    (consumeStep true st).queue = rest := by
  obtain ⟨ts, hts⟩ := Option.isSome_iff_exists.mp hts
  simp [consumeStep, hq, processMessage, hts]

/-- Witness for C4 at a concrete one-message state. -/
theorem storage_error_drops_message_witness :
    (consumeStep true { initState with queue := [evA] }).store = initState.store ∧
    (consumeStep true { initState with queue := [evA] }).stats = initState.stats ∧
    (consumeStep true { initState with queue := [evA] }).queue = [] :=
  storage_error_drops_message { initState with queue := [evA] } evA [] rfl (by decide)

/-! ## C5: batch acceptance is atomic -/

/-- C5: for a batch of M valid events, a successful `POST /publish`
appends all M events to the queue tail in order, increments `received`
by exactly M, and returns HTTP 200 with status "queued" and count M;
when the queue transport fails, the handler raises a 500 server error
and neither the queue nor `received` changes. -/
theorem publish_batch_acceptance (evs : List LogEvent) (st : SysState)
    (hne : evs ≠ []) :
    publish_event true (.batch evs) st =
      ({ st with queue := st.queue ++ evs,
                 stats := { st.stats with received := st.stats.received + evs.length } },
       .ok "queued" evs.length) ∧
    publish_event false (.batch evs) st = (st, .serverError 500) := by
  constructor
  · simp [publish_event, eventsToProcess]
  · simp [publish_event, eventsToProcess, hne]

/-- Witness for C5 at a concrete two-event batch. -/
theorem publish_batch_acceptance_witness :
    publish_event true (.batch [evA, evB]) initState =
      ({ initState with
          queue := initState.queue ++ [evA, evB],
          stats := { initState.stats with
                      received := initState.stats.received + [evA, evB].length } },
       .ok "queued" [evA, evB].length) ∧
    publish_event false (.batch [evA, evB]) initState =
      (initState, .serverError 500) :=
  publish_batch_acceptance [evA, evB] initState (by decide)

/-! ## C9: the empty batch is accepted as a no-op -/

/-- C9: `POST /publish` with an empty array succeeds with HTTP 200 and
body status "queued", count 0, enqueues nothing and leaves `received`
(and the whole state) unchanged, whatever the transport oracle says — an
empty pipeline performs no queue round trip at all. -/
theorem empty_batch_accepted (queueOk : Bool) (st : SysState) :
    publish_event queueOk (.batch []) st = (st, .ok "queued" 0) := by
  cases st
  simp [publish_event, eventsToProcess]

/-! ## C3: counter consistency under every interleaving -/

theorem counterInv_step {k : Nat} {s1 s2 : SysState} (hstep : SysStep s1 s2)
    (h : CounterInv k s1) : CounterInv k s2 := by
  unfold CounterInv at *
  cases hstep with
  | publish queueOk body =>
      cases hq : (queueOk || (eventsToProcess body).isEmpty) with
      | true => simp [publish_event, hq]; omega
      | false => simpa [publish_event, hq] using h
  | consume dbFail =>
      cases hqv : s1.queue with
      | nil => simpa [consumeStep, hqv] using h
      | cons e rest =>
          rw [hqv] at h
          simp only [consumeStep, hqv]
          cases hts : fromisoformat e.timestamp with
          | none => simp [processMessage, hts]; simp at h; omega
          | some ts =>
              cases dbFail with
              | true => simp [processMessage, hts]; simp at h; omega
              | false =>
                  cases hk : hasKey s1.store e.topic e.event_id with
                  | true => simp [processMessage, hts, hk]; simp at h; omega
                  | false => simp [processMessage, hts, hk]; simp at h; omega

theorem counterInv_reachable {k : Nat} {s0 st : SysState} (h0 : CounterInv k s0)
    (h : ReachableFrom s0 st) : CounterInv k st := by
  induction h with
  | refl => exact h0
  | tail _ hstep ih => exact counterInv_step hstep ih

/-- C3: in every state reachable from process start by any interleaving
of Ingestion Gate steps (which increment `received`) and Consumer Pool
steps (which increment `processed_success` or `duplicates_dropped`), the
in-memory counters satisfy
`received >= processed_success + duplicates_dropped`. -/
theorem counter_consistency (st : SysState) (h : ReachableFrom initState st) :
    st.stats.processed_success + st.stats.duplicates_dropped ≤ st.stats.received := by
  have hinv : CounterInv 0 st :=
    counterInv_reachable (by simp [CounterInv, initState]) h
  unfold CounterInv at hinv
  omega

/-- Witness for C3 at the concrete state after publishing one event and
running one consumer iteration. -/
theorem counter_consistency_witness :
    (consumeStep false (publish_event true (.single evA) initState).1).stats.processed_success +
      (consumeStep false (publish_event true (.single evA) initState).1).stats.duplicates_dropped ≤
      (consumeStep false (publish_event true (.single evA) initState).1).stats.received :=
  counter_consistency _
    (ReachableFrom.tail
      (ReachableFrom.tail ReachableFrom.refl (SysStep.publish true (.single evA) initState))
      (SysStep.consume false _))

/-! ## C1: idempotent persistence of a repeated (topic, event_id) pair -/

theorem consumeN_duplicates (T I : String) (evs : List LogEvent) :
    ∀ st : SysState,
      st.queue = evs →
      hasKey st.store T I = true →
      (∀ e ∈ evs, e.topic = T ∧ e.event_id = I ∧ (fromisoformat e.timestamp).isSome) →
      consumeN evs.length st =
        { st with
            queue := [],
            stats := { st.stats with
              duplicates_dropped := st.stats.duplicates_dropped + evs.length } } := by
  induction evs with
  | nil =>
      intro st hq _ _
      cases st
      simp_all [consumeN]
  | cons e rest ih =>
      intro st hq hk hall
      obtain ⟨hT, hI, hts⟩ := hall e (by simp)
      obtain ⟨ts, hts⟩ := Option.isSome_iff_exists.mp hts
      have hk' : hasKey st.store e.topic e.event_id = true := by
        rw [hT, hI]; exact hk
      have hstep : consumeStep false st =
          { st with
              queue := rest,
              stats := { st.stats with
                duplicates_dropped := st.stats.duplicates_dropped + 1 } } := by
        simp [consumeStep, hq, processMessage, hts, hk']
      have hrest := ih
        { st with
            queue := rest,
            stats := { st.stats with
              duplicates_dropped := st.stats.duplicates_dropped + 1 } }
        rfl hk (fun e' he' => hall e' (by simp [he']))
      show consumeN (rest.length + 1) st = _
      rw [consumeN, hstep, hrest]
      have : st.stats.duplicates_dropped + 1 + rest.length =
          st.stats.duplicates_dropped + (rest.length + 1) := by omega
      simp [this]

/-- C1: publishing the same (topic, event_id) pair K times (K >= 1, the K
attempts listed in any order, each consumer transaction being atomic so
any concurrent schedule is such an order) results in exactly one stored
record for that pair, exactly one increment of `processed_success`, and
K-1 increments of `duplicates_dropped`. -/
theorem idempotent_persistence (T I : String) (evs : List LogEvent) (st0 : SysState)
    (hq0 : st0.queue = [])
    (h0 : hasKey st0.store T I = false)
    (hall : ∀ e ∈ evs, e.topic = T ∧ e.event_id = I ∧ (fromisoformat e.timestamp).isSome)
    (hK : 1 ≤ evs.length) :
    keyCount (consumeN evs.length (publish_event true (.batch evs) st0).1).store T I = 1 ∧
    (consumeN evs.length (publish_event true (.batch evs) st0).1).stats.processed_success =
      st0.stats.processed_success + 1 ∧
    (consumeN evs.length (publish_event true (.batch evs) st0).1).stats.duplicates_dropped =
      st0.stats.duplicates_dropped + (evs.length - 1) ∧
    (consumeN evs.length (publish_event true (.batch evs) st0).1).stats.received =
      st0.stats.received + evs.length ∧
    (consumeN evs.length (publish_event true (.batch evs) st0).1).queue = [] := by
  cases evs with
  | nil => simp at hK
  | cons e rest =>
      obtain ⟨hT, hI, hts⟩ := hall e (by simp)
      obtain ⟨ts, hts⟩ := Option.isSome_iff_exists.mp hts
      have hst1 : (publish_event true (.batch (e :: rest)) st0).1 =
          { st0 with
              queue := e :: rest,
              stats := { st0.stats with
                received := st0.stats.received + (e :: rest).length } } := by
        simp [publish_event, eventsToProcess, hq0]
      have hk' : hasKey st0.store e.topic e.event_id = false := by
        rw [hT, hI]; exact h0
      have hstep : consumeStep false
          { st0 with
              queue := e :: rest,
              stats := { st0.stats with
                received := st0.stats.received + (e :: rest).length } } =
          { st0 with
              queue := rest,
              store := st0.store ++ [mkRecord st0.nextId e ts],
              nextId := st0.nextId + 1,
              stats := { st0.stats with
                received := st0.stats.received + (e :: rest).length,
                processed_success := st0.stats.processed_success + 1 } } := by
        simp [consumeStep, processMessage, hts, hk']
      have hkey2 : hasKey (st0.store ++ [mkRecord st0.nextId e ts]) T I = true := by
        rw [← hT, ← hI]
        exact hasKey_mkRecord_self st0.store st0.nextId e ts
      have hdrain := consumeN_duplicates T I rest
        { st0 with
            queue := rest,
            store := st0.store ++ [mkRecord st0.nextId e ts],
            nextId := st0.nextId + 1,
            stats := { st0.stats with
              received := st0.stats.received + (e :: rest).length,
              processed_success := st0.stats.processed_success + 1 } }
        rfl hkey2 (fun e' he' => hall e' (by simp [he']))
      have hrun : consumeN (e :: rest).length (publish_event true (.batch (e :: rest)) st0).1 =
          { st0 with
              queue := [],
              store := st0.store ++ [mkRecord st0.nextId e ts],
              nextId := st0.nextId + 1,
              stats := { st0.stats with
                received := st0.stats.received + (e :: rest).length,
                processed_success := st0.stats.processed_success + 1,
                duplicates_dropped := st0.stats.duplicates_dropped + rest.length } } := by
        rw [hst1]
        show consumeN (rest.length + 1) _ = _
        rw [consumeN, hstep, hdrain]
      rw [hrun]
      have hcount : keyCount (st0.store ++ [mkRecord st0.nextId e ts]) T I = 1 := by
        rw [keyCount_append, keyCount_eq_zero_of_hasKey_eq_false _ _ _ h0, ← hT, ← hI,
          keyCount_mkRecord_self]
      refine ⟨hcount, rfl, ?_, rfl, rfl⟩
      simp

/-- Witness for C1: three publishes of the (t, a) pair. -/
theorem idempotent_persistence_witness :
    keyCount (consumeN [evA, evA2, evA3].length
        (publish_event true (.batch [evA, evA2, evA3]) initState).1).store "t" "a" = 1 ∧
    (consumeN [evA, evA2, evA3].length
        (publish_event true (.batch [evA, evA2, evA3]) initState).1).stats.processed_success =
      initState.stats.processed_success + 1 ∧
    (consumeN [evA, evA2, evA3].length
        (publish_event true (.batch [evA, evA2, evA3]) initState).1).stats.duplicates_dropped =
      initState.stats.duplicates_dropped + ([evA, evA2, evA3].length - 1) ∧
    (consumeN [evA, evA2, evA3].length
        (publish_event true (.batch [evA, evA2, evA3]) initState).1).stats.received =
      initState.stats.received + [evA, evA2, evA3].length ∧
    (consumeN [evA, evA2, evA3].length
        (publish_event true (.batch [evA, evA2, evA3]) initState).1).queue = [] :=
  idempotent_persistence "t" "a" [evA, evA2, evA3] initState rfl (by decide)
    (by decide) (by decide)

/-! ## C2: deduplication key independence across topics -/

/-- C2: two events sharing an event_id but with different topics are both
persisted as distinct records — deduplication acts only on the pair
(topic, event_id), never on event_id alone. -/
theorem topic_key_independence (e1 e2 : LogEvent) (st0 : SysState)
    (hq0 : st0.queue = [])
    (hid : e1.event_id = e2.event_id)
    (htop : e1.topic ≠ e2.topic)
    (h1 : hasKey st0.store e1.topic e1.event_id = false)
    (h2 : hasKey st0.store e2.topic e2.event_id = false)
    (hts1 : (fromisoformat e1.timestamp).isSome)
    (hts2 : (fromisoformat e2.timestamp).isSome) :
    keyCount (consumeN 2 (publish_event true (.batch [e1, e2]) st0).1).store
        e1.topic e1.event_id = 1 ∧
    keyCount (consumeN 2 (publish_event true (.batch [e1, e2]) st0).1).store
        e2.topic e2.event_id = 1 ∧
    (consumeN 2 (publish_event true (.batch [e1, e2]) st0).1).stats.processed_success =
      st0.stats.processed_success + 2 ∧
    (consumeN 2 (publish_event true (.batch [e1, e2]) st0).1).stats.duplicates_dropped =
      st0.stats.duplicates_dropped := by
  obtain ⟨ts1, hts1⟩ := Option.isSome_iff_exists.mp hts1
  obtain ⟨ts2, hts2⟩ := Option.isSome_iff_exists.mp hts2
  have hst1 : (publish_event true (.batch [e1, e2]) st0).1 =
      { st0 with
          queue := [e1, e2],
          stats := { st0.stats with received := st0.stats.received + 2 } } := by
    simp [publish_event, eventsToProcess, hq0]
  have hbe12 : (e1.topic == e2.topic) = false := beq_eq_false_iff_ne.mpr htop
  have hbe21 : (e2.topic == e1.topic) = false := beq_eq_false_iff_ne.mpr (Ne.symm htop)
  have hkey2 : hasKey (st0.store ++ [mkRecord st0.nextId e1 ts1]) e2.topic e2.event_id
      = false := by
    rw [hasKey_append, h2]
    simp [hasKey, mkRecord, hbe12]
  have hrun : consumeN 2 (publish_event true (.batch [e1, e2]) st0).1 =
      { st0 with
          queue := [],
          store := st0.store ++ [mkRecord st0.nextId e1 ts1]
                     ++ [mkRecord (st0.nextId + 1) e2 ts2],
          nextId := st0.nextId + 2,
          stats := { st0.stats with
            received := st0.stats.received + 2,
            processed_success := st0.stats.processed_success + 1 + 1 } } := by
    rw [hst1]
    show consumeN 1 (consumeStep false _) = _
    rw [show ∀ s, consumeN 1 s = consumeStep false s from fun s => rfl]
    rw [show consumeStep false
        { st0 with
            queue := [e1, e2],
            stats := { st0.stats with received := st0.stats.received + 2 } } =
        { st0 with
            queue := [e2],
            store := st0.store ++ [mkRecord st0.nextId e1 ts1],
            nextId := st0.nextId + 1,
            stats := { st0.stats with
              received := st0.stats.received + 2,
              processed_success := st0.stats.processed_success + 1 } } from by
      simp [consumeStep, processMessage, hts1, h1]]
    simp [consumeStep, processMessage, hts2, hkey2]
  rw [hrun]
  have hm1 : keyCount [mkRecord st0.nextId e1 ts1] e2.topic e2.event_id = 0 := by
    simp [keyCount, mkRecord, List.filter, hbe12]
  have hm2 : keyCount [mkRecord (st0.nextId + 1) e2 ts2] e1.topic e1.event_id = 0 := by
    simp [keyCount, mkRecord, List.filter, hbe21]
  refine ⟨?_, ?_, rfl, rfl⟩
  · rw [keyCount_append, keyCount_append,
      keyCount_eq_zero_of_hasKey_eq_false _ _ _ h1, keyCount_mkRecord_self, hm2]
  · rw [keyCount_append, keyCount_append,
      keyCount_eq_zero_of_hasKey_eq_false _ _ _ h2, hm1, keyCount_mkRecord_self]

/-- Witness for C2: same event_id a under topics t and u. -/
theorem topic_key_independence_witness :
    keyCount (consumeN 2 (publish_event true (.batch [evA, evB]) initState).1).store
        evA.topic evA.event_id = 1 ∧
    keyCount (consumeN 2 (publish_event true (.batch [evA, evB]) initState).1).store
        evB.topic evB.event_id = 1 ∧
    (consumeN 2 (publish_event true (.batch [evA, evB]) initState).1).stats.processed_success =
      initState.stats.processed_success + 2 ∧
    (consumeN 2 (publish_event true (.batch [evA, evB]) initState).1).stats.duplicates_dropped =
      initState.stats.duplicates_dropped :=
  topic_key_independence evA evB initState rfl rfl (by decide) rfl rfl (by decide) (by decide)

/-! ## C6: filter correctness of the events listing -/

theorem mem_insertDesc (r x : StoredEvent) (l : List StoredEvent) :
    x ∈ insertDesc r l ↔ x = r ∨ x ∈ l := by
  induction l with
  | nil => simp [insertDesc]
  | cons y ys ih =>
      simp only [insertDesc]
      split
      · simp
      · simp [ih]
        tauto

theorem sorted_insertDesc (r : StoredEvent) (l : List StoredEvent)
    (h : l.Pairwise tsDescRel) : (insertDesc r l).Pairwise tsDescRel := by
  induction l with
  | nil => simp [insertDesc]
  | cons y ys ih =>
      rcases List.pairwise_cons.mp h with ⟨hy, hys⟩
      simp only [insertDesc]
      split
      · rename_i hle
        refine List.pairwise_cons.mpr ⟨?_, h⟩
        intro b hb
        rcases List.mem_cons.mp hb with hb | hb
        · subst hb; exact hle
        · exact le_trans (hy b hb) hle
      · rename_i hgt
        refine List.pairwise_cons.mpr ⟨?_, ih hys⟩
        intro b hb
        rcases (mem_insertDesc r b ys).mp hb with hb | hb
        · subst hb; exact le_of_not_le hgt
        · exact hy b hb

theorem sorted_sortByTimestampDesc (l : List StoredEvent) :
    (sortByTimestampDesc l).Pairwise tsDescRel := by
  induction l with
  | nil => simp [sortByTimestampDesc]
  | cons x xs ih => exact sorted_insertDesc x _ ih

theorem mem_sortByTimestampDesc (x : StoredEvent) (l : List StoredEvent) :
    x ∈ sortByTimestampDesc l ↔ x ∈ l := by
  induction l with
  | nil => simp [sortByTimestampDesc]
  | cons y ys ih => simp [sortByTimestampDesc, mem_insertDesc, ih]

/-- C6 counterexample: the claim quantifies over every topic T, but for
the empty topic the handler check `if topic:` is false, so the query
returns the unfiltered listing: a record whose topic is "x" is returned
by `get_events` with topic "", refuting "returns only records whose
topic equals T exactly" at T = "". -/
theorem get_events_empty_topic_cex :
    recX ∈ get_events [recX] (some "") ∧ recX.topic ≠ "" := by
  constructor
  · decide
  · decide

/-- C6 (amended to nonempty topics): for every store and every nonempty
topic T, `get_events` with topic T returns only records whose topic
equals T exactly, ordered by timestamp descending, and at most 50 of
them; with no topic given, the same ordering and cap apply to the
unfiltered records. -/
theorem get_events_filter_correct (store : List StoredEvent) (T : String)
    (hT : T ≠ "") :
    (∀ r ∈ get_events store (some T), r.topic = T) ∧
    (get_events store (some T)).length ≤ 50 ∧
    (get_events store (some T)).Pairwise tsDescRel ∧
    (∀ r ∈ get_events store none, r ∈ store) ∧
    (get_events store none).length ≤ 50 ∧
    (get_events store none).Pairwise tsDescRel := by
  have htruthy : topicTruthy (some T) = true := by
    simp [topicTruthy, hT]
  refine ⟨?_, ?_, ?_, ?_, ?_, ?_⟩
  · intro r hr
    have hunf : get_events store (some T) =
        (sortByTimestampDesc (store.filter (fun s => s.topic == T))).take 50 := by
      simp [get_events, htruthy]
    rw [hunf] at hr
    have hr' := (List.take_sublist 50 _).subset hr
    have hr'' := (mem_sortByTimestampDesc _ _).mp hr'
    exact eq_of_beq (List.mem_filter.mp hr'').2
  · exact List.length_take_le 50 _
  · exact List.Pairwise.sublist (List.take_sublist 50 _) (sorted_sortByTimestampDesc _)
  · intro r hr
    have hunf : get_events store none = (sortByTimestampDesc store).take 50 := by
      simp [get_events, topicTruthy]
    rw [hunf] at hr
    exact (mem_sortByTimestampDesc _ _).mp ((List.take_sublist 50 _).subset hr)
  · exact List.length_take_le 50 _
  · exact List.Pairwise.sublist (List.take_sublist 50 _) (sorted_sortByTimestampDesc _)

/-- Witness for C6 at a concrete three-record store and topic x. -/
theorem get_events_filter_correct_witness :
    (∀ r ∈ get_events [recX, recY, recZ] (some "x"), r.topic = "x") ∧
    (get_events [recX, recY, recZ] (some "x")).length ≤ 50 ∧
    (get_events [recX, recY, recZ] (some "x")).Pairwise tsDescRel ∧
    (∀ r ∈ get_events [recX, recY, recZ] none, r ∈ [recX, recY, recZ]) ∧
    (get_events [recX, recY, recZ] none).length ≤ 50 ∧
    (get_events [recX, recY, recZ] none).Pairwise tsDescRel :=
  get_events_filter_correct [recX, recY, recZ] "x" (by decide)

/-! ## C7: startup retry loop -/

/-- C7 counterexample: when all 5 connection attempts fail, the code
does not fail fatally — it falls out of the retry loop, starts the 5
consumer tasks anyway and yields into normal operation with the handles
still None. -/
theorem startup_no_fatal_cex :
    (lifespanStartup (fun _ => false)).db_pool = none ∧
    (lifespanStartup (fun _ => false)).redis_client = none ∧
    (lifespanStartup (fun _ => false)).consumersStarted = 5 :=
  ⟨rfl, rfl, rfl⟩

/-- C7 (amended): startup retries the connection at most 5 times (with a
fixed 2-second sleep between attempts) and stops at the first success,
after which the handles are set; but when all 5 attempts fail the
initialization does NOT fail fatally: it proceeds into normal operation,
starting the 5 consumers with both handles still None. -/
theorem startup_retry_bounded (ok : Nat → Bool) :
    (lifespanStartup ok).consumersStarted = 5 ∧
    ((∃ i, i < 5 ∧ ok i = true) → (lifespanStartup ok).db_pool = some ()) ∧
    ((∀ i, i < 5 → ok i = false) → (lifespanStartup ok).db_pool = none) := by
  have h5 : firstSuccess ok 0 5 =
      (if ok 0 then some 0 else if ok 1 then some 1 else if ok 2 then some 2
       else if ok 3 then some 3 else if ok 4 then some 4 else none) := rfl
  cases h0 : ok 0 <;> cases h1 : ok 1 <;> cases h2 : ok 2 <;> cases h3 : ok 3 <;>
    cases h4 : ok 4 <;>
    simp [lifespanStartup, h5, h0, h1, h2, h3, h4] <;>
    first
      | (rintro ⟨i, hi, hoki⟩
         interval_cases i <;> simp_all)
      | (intro i hi
         interval_cases i <;> simp_all)
      | exact ⟨0, by omega, h0⟩
      | exact ⟨1, by omega, h1⟩
      | exact ⟨2, by omega, h2⟩
      | exact ⟨3, by omega, h3⟩
      | exact ⟨4, by omega, h4⟩

/-- Witness for C7: an oracle whose third attempt succeeds. -/
theorem startup_retry_bounded_witness :
    (lifespanStartup (fun i => i == 2)).consumersStarted = 5 ∧
    ((∃ i, i < 5 ∧ (fun i : Nat => i == 2) i = true) →
      (lifespanStartup (fun i => i == 2)).db_pool = some ()) ∧
    ((∀ i, i < 5 → (fun i : Nat => i == 2) i = false) →
      (lifespanStartup (fun i => i == 2)).db_pool = none) :=
  startup_retry_bounded (fun i => i == 2)

/-! ## C8: uptime format -/

theorem splitOnColon_no_colon (a : List Char) (h : ∀ c ∈ a, c ≠ ':') :
    splitOnColon a = [a] := by
  induction a with
  | nil => rfl
  | cons c cs ih =>
      have hc : c ≠ ':' := h c (by simp)
      have ih' := ih (fun d hd => h d (by simp [hd]))
      simp [splitOnColon, hc, ih']

theorem splitOnColon_append (a r : List Char) (h : ∀ c ∈ a, c ≠ ':') :
    splitOnColon (a ++ ':' :: r) = a :: splitOnColon r := by
  induction a with
  | nil => simp [splitOnColon]
  | cons c cs ih =>
      have hc : c ≠ ':' := h c (by simp)
      have ih' := ih (fun d hd => h d (by simp [hd]))
      simp [splitOnColon, hc, ih']

theorem no_colon_of_allDigits (cs : List Char) (h : allDigits cs = true) :
    ∀ c ∈ cs, c ≠ ':' := by
  intro c hc heq
  have hd := List.all_eq_true.mp h c hc
  subst heq
  exact absurd hd (by decide)

theorem repr_lt24_digits :
    ∀ h : Nat, h < 24 → allDigits (Nat.repr h).data = true ∧ (Nat.repr h).data ≠ [] := by
  decide

theorem pad2_lt60_digits :
    ∀ m : Nat, m < 60 → allDigits (pad2 m).data = true ∧ (pad2 m).data.length = 2 := by
  decide

theorem isHMMSS_concat (hh mm ss : Nat) (h1 : hh < 24) (h2 : mm < 60)
    (h3 : ss < 60) :
    isHMMSS (Nat.repr hh ++ ":" ++ pad2 mm ++ ":" ++ pad2 ss) = true := by
  obtain ⟨hda, hdb⟩ := repr_lt24_digits hh h1
  obtain ⟨hma, hmb⟩ := pad2_lt60_digits mm h2
  obtain ⟨hsa, hsb⟩ := pad2_lt60_digits ss h3
  have hdata : (Nat.repr hh ++ ":" ++ pad2 mm ++ ":" ++ pad2 ss).data =
      (Nat.repr hh).data ++ ':' :: ((pad2 mm).data ++ ':' :: (pad2 ss).data) := by
    simp [String.data_append]
  rw [isHMMSS, hdata,
    splitOnColon_append _ _ (no_colon_of_allDigits _ hda),
    splitOnColon_append _ _ (no_colon_of_allDigits _ hma),
    splitOnColon_no_colon _ (no_colon_of_allDigits _ hsa)]
  simp [hda, hma, hsa, hmb, hsb, List.isEmpty_iff, hdb]

/-- C8 counterexample: at 86400 elapsed seconds (one day) the uptime
string produced by `get_stats` is "1 day, 0:00:00", which does not have
the colon-separated three-field `H:MM:SS` shape the claim asserts for
every elapsed time. -/
theorem uptime_shape_cex :
    (get_stats 86400 initState).uptime = "1 day, 0:00:00" ∧
    isHMMSS ((get_stats 86400 initState).uptime) = false := by
  constructor
  · rfl
  · decide

/-- C8 (amended to uptimes below one day): for every elapsed time under
24 hours, the uptime string returned by `get_stats` is exactly the
elapsed hours, minutes and seconds in the `H:MM:SS` shape; from one day
on, the Python timedelta format prefixes a day count instead. -/
theorem uptime_shape_below_one_day (st : SysState) (n : Nat) (h : n < 86400) :
    isHMMSS ((get_stats n st).uptime) = true ∧
    (get_stats n st).uptime =
      Nat.repr (n / 3600) ++ ":" ++ pad2 (n % 3600 / 60) ++ ":" ++ pad2 (n % 60) := by
  have hmod : n % 86400 = n := Nat.mod_eq_of_lt h
  have hdiv : n / 86400 = 0 := Nat.div_eq_of_lt h
  have hu : (get_stats n st).uptime =
      Nat.repr (n / 3600) ++ ":" ++ pad2 (n % 3600 / 60) ++ ":" ++ pad2 (n % 60) := by
    simp [get_stats, timedeltaStr, hmod, hdiv]
  refine ⟨?_, hu⟩
  rw [hu]
  have hh24 : n / 3600 < 24 := Nat.div_lt_of_lt_mul (by omega)
  have hm60 : n % 3600 / 60 < 60 :=
    Nat.div_lt_of_lt_mul (Nat.lt_of_lt_of_le (Nat.mod_lt n (by omega)) (by omega))
  have hs60 : n % 60 < 60 := Nat.mod_lt n (by omega)
  exact isHMMSS_concat _ _ _ hh24 hm60 hs60

/-- Witness for C8 at 3661 elapsed seconds (1 hour, 1 minute, 1 second). -/
theorem uptime_shape_below_one_day_witness :
    isHMMSS ((get_stats 3661 initState).uptime) = true ∧
    (get_stats 3661 initState).uptime =
      Nat.repr (3661 / 3600) ++ ":" ++ pad2 (3661 % 3600 / 60) ++ ":" ++ pad2 (3661 % 60) :=
  uptime_shape_below_one_day initState 3661 (by omega)

/-! ## C10: unparseable timestamps are accepted but never persisted -/

/-- C10: an event whose fields are present with the right types but
whose timestamp string is not parseable is accepted by the gate (HTTP
200, `received` incremented), yet every consumer pop of it fails during
timestamp normalization: the message is dropped, nothing is persisted
and no consumer counter moves — after which `received` strictly exceeds
`processed_success + duplicates_dropped` in every reachable later
state. -/
theorem bad_timestamp_never_counted (e : LogEvent)
    (hbad : fromisoformat e.timestamp = none) :
    (∀ st : SysState, publish_event true (.single e) st =
        ({ st with queue := st.queue ++ [e],
                   stats := { st.stats with received := st.stats.received + 1 } },
         .ok "queued" 1)) ∧
    (∀ (st : SysState) (rest : List LogEvent) (dbFail : Bool),
        st.queue = e :: rest →
        consumeStep dbFail st = { st with queue := rest }) ∧
    (∀ st' : SysState,
        ReachableFrom (consumeStep false (publish_event true (.single e) initState).1) st' →
        st'.stats.processed_success + st'.stats.duplicates_dropped <
          st'.stats.received) := by
  have hpub : ∀ st : SysState, publish_event true (.single e) st =
      ({ st with queue := st.queue ++ [e],
                 stats := { st.stats with received := st.stats.received + 1 } },
       .ok "queued" 1) := by
    intro st
    simp [publish_event, eventsToProcess]
  have hcons : ∀ (st : SysState) (rest : List LogEvent) (dbFail : Bool),
      st.queue = e :: rest → consumeStep dbFail st = { st with queue := rest } := by
    intro st rest dbFail hq
    simp [consumeStep, hq, processMessage, hbad]
  refine ⟨hpub, hcons, ?_⟩
  intro st' hreach
  have hdrop : consumeStep false (publish_event true (.single e) initState).1 =
      { queue := [], store := [], nextId := 1,
        stats := { received := 1, processed_success := 0, duplicates_dropped := 0 } } := by
    rw [hpub initState]
    exact hcons _ [] false rfl
  have hbase : CounterInv 1
      (consumeStep false (publish_event true (.single e) initState).1) := by
    rw [hdrop]
    simp [CounterInv]
  have hinv := counterInv_reachable hbase hreach
  unfold CounterInv at hinv
  omega

/-- Witness for C10 with the literal timestamp string not-a-date. -/
theorem bad_timestamp_never_counted_witness :
    publish_event true (.single evBad) initState =
      ({ initState with
          queue := initState.queue ++ [evBad],
          stats := { initState.stats with
                      received := initState.stats.received + 1 } },
       .ok "queued" 1) ∧
    consumeStep false { initState with queue := [evBad] } =
      { { initState with queue := [evBad] } with queue := [] } :=
  ⟨(bad_timestamp_never_counted evBad (by decide)).1 initState,
   (bad_timestamp_never_counted evBad (by decide)).2.1
     { initState with queue := [evBad] } [] false rfl⟩

end Aggregator
